import Mathlib

/-!
Shallow embedding of the orchestration scripts in rusty-hog (src/scripts).
Each script enumerates scan targets, fans scanner-binary invocations out
over a small process pool, aggregates the per-target JSON artifacts into
telemetry events, and posts one gzip-compressed batch to the Insights
ingestion endpoint.  The definitions below are direct translations of the
relevant Python fragments; external collaborators (the scanner binary,
the filesystem, uuid4 draws, the regular-expression matcher) enter as
explicit parameters or as small state models, as documented per
definition.
-/

namespace RustyHog

/-- One record emitted by a scanner binary, as consumed by the scripts.
The JSON objects are open records; this structure is the union of the
fields the scripts actually read (ghe_secret_monitor reads reason, path,
commitHash, parent_commit_hash, old_line_num, new_line_num;
gh_org_scanner additionally stringsFound, commit, date; gdrive_scanner
reads stringsFound and linenum). -/
structure RawFinding where
  reason : String
  stringsFound : List String
  path : String
  commit : String
  commitHash : String
  parent_commit_hash : String
  old_line_num : Nat
  new_line_num : Nat
  linenum : Nat
  date : String
deriving Repr, DecidableEq

/-- The per-target dictionary returned by scan_repo in
ghe_secret_monitor.py lines 108-123: keys repo, results, url. -/
structure RunRecord where
  repo : String
  results : String
  url : String
deriving Repr, DecidableEq

/-- ghe_secret_monitor.py lines 173-177: the derived file URL for one
finding.  The new line number and commit hash are used when
new_line_num is non-zero, otherwise the parent commit hash and the old
line number. -/
def fileurl (url : String) (finding : RawFinding) : String :=
  if finding.new_line_num ≠ 0 then
    url ++ "/blob/" ++ finding.commitHash ++ "/" ++ finding.path ++ "#L"
      ++ toString finding.new_line_num
  else
    url ++ "/blob/" ++ finding.parent_commit_hash ++ "/" ++ finding.path ++ "#L"
      ++ toString finding.old_line_num

/-- The Insights event built for one finding in ghe_secret_monitor.py
lines 178-191. -/
structure FindingEvent where
  eventType : String
  commitHash : String
  reason : String
  path : String
  repo : String
  url : String
  fileurl : String
  old_line_num : Nat
  new_line_num : Nat
  parent_commitHash : String
deriving Repr, DecidableEq

/-- ghe_secret_monitor.py lines 178-191: the event appended to
output_array for one finding of one scanned repo. -/
def gheFindingEvent (r : RunRecord) (f : RawFinding) : FindingEvent :=
  { eventType := "ghe_secret_monitor"
    commitHash := f.commitHash
    reason := f.reason
    path := f.path
    repo := r.repo
    url := r.url ++ "/commit/" ++ f.commitHash ++ "/" ++ f.path
    fileurl := fileurl r.url f
    old_line_num := f.old_line_num
    new_line_num := f.new_line_num
    parent_commitHash := f.parent_commit_hash }

/-- ghe_secret_monitor.py lines 137-157: the fixed allow-list of reasons
for which a commit comment is posted. -/
def comment_worthy_reasons : List String :=
  [ "Amazon AWS Access Key ID"
  , "Amazon MWS Auth Token"
  , "Slack Token"
  , "GitHub"
  , "MailChimp API Key"
  , "Mailgun API Key"
  , "Slack Webhook"
  , "New Relic Insights Key (specific)"
  , "New Relic Insights Key (vague)"
  , "New Relic License Key"
  , "New Relic HTTP Auth Headers and API Key"
  , "New Relic API Key Service Key (new format)"
  , "New Relic APM License Key (new format)"
  , "New Relic APM License Key (new format, region-aware)"
  , "New Relic REST API Key (new format)"
  , "New Relic Admin API Key (new format)"
  , "New Relic Insights Insert Key (new format)"
  , "New Relic Insights Query Key (new format)"
  , "New Relic Synthetics Private Location Key (new format)" ]

/-- ghe_secret_monitor.py lines 200-204: the comment body posted on a
commit; the commit author login is fetched from the API and enters as a
parameter. -/
def commentBody (authorLogin : String) (f : RawFinding) : String :=
  "Hi @" ++ authorLogin ++ " ! It looks like a secret " ++ f.reason
    ++ " was posted in the file " ++ f.path ++ " on line "
    ++ toString f.new_line_num
    ++ " in this commit. We\x27re trying to reduce sensitive information in "
    ++ "GitHub Enterprise by using the Rusty Hog scanner on all commits going forward."

/-- ghe_secret_monitor.py lines 193-206 (Part 2 of the finding loop):
the guard at line 194 skips the comment when the reason is not in
comment_worthy_reasons; otherwise the body is built and posted.  The
result is the comment posted for the finding, if any. -/
def commentFor (authorLogin : String) (f : RawFinding) : Option String :=
  if f.reason ∈ comment_worthy_reasons then some (commentBody authorLogin f) else none

/-- The fields of a completed subprocess the scripts read: returncode,
stdout, stderr (all captured with capture_output=True). -/
structure CompletedProcess where
  returncode : Int
  stdout : String
  stderr : String
deriving Repr, DecidableEq

/-- Model of pythons subprocess.run on an already-finished process:
with check=True it raises CalledProcessError when the exit status is
non-zero, otherwise it returns the CompletedProcess unchanged.  The
process outcome itself is an input, since the scanner binary is an
external collaborator. -/
def subprocessRun (check : Bool) (p : CompletedProcess) : Except String CompletedProcess :=
  if check && p.returncode != 0 then
    .error ("CalledProcessError: exit status " ++ toString p.returncode)
  else
    .ok p

/-- ghe_secret_monitor.py line 121: choctaw hog is run with
capture_output=True and no check argument, so check defaults to False. -/
def ghe_choctaw_run (p : CompletedProcess) : Except String CompletedProcess :=
  subprocessRun false p

/-- pypi_secret_monitor.py line 54: duroc hog is run with check=True. -/
def duroc_hog_output (p : CompletedProcess) : Except String CompletedProcess :=
  subprocessRun true p

/-- s3weblisting_secret_monitor.py lines 58-60 (and
htmldirlisting_secret_monitor.py lines 55-57, rubygem_secret_monitor.py
line 46): duroc hog is run with check=True. -/
def s3_duroc_run (p : CompletedProcess) : Except String CompletedProcess :=
  subprocessRun true p

/-- ghe_secret_monitor.py lines 108-123: the worker builds an output
path from the temp directory and a fresh uuid4 draw (both passed in
here), runs choctaw hog without check, and returns the record
unconditionally. -/
def scan_repo (tempdir uuid : String) (x : String × String × String) : RunRecord :=
  { repo := x.1, results := tempdir ++ "/" ++ uuid, url := x.2.2 }

/-- ghe_secret_monitor.py lines 212-216 (identical in every script):
the headers of the Insights POST. -/
def insights_headers (key : String) : List (String × String) :=
  [ ("Content-Type", "application/json")
  , ("X-Insert-Key", key)
  , ("Content-Encoding", "gzip") ]

/-- ghe_secret_monitor.py line 211: the POST URL is a plain string
literal, not an f-string, so the INSIGHTS_ACCT_ID placeholder between
braces is left verbatim and the environment value (the parameter here)
is unused.  The same plain literal appears in pypi_secret_monitor.py
line 69, rubygem_secret_monitor.py line 61,
s3weblisting_secret_monitor.py line 121,
htmldirlisting_secret_monitor.py line 98 and secret_police.py line 119. -/
def ghe_insights_url (_INSIGHTS_ACCT_ID : String) : String :=
  "https://insights-collector.newrelic.com/v1/accounts/\x7bINSIGHTS_ACCT_ID\x7d/events"

/-- jira_secret_scanner.py line 134 (and jira_secret_monitor.py lines
142 and 208): the POST URL is an f-string, so the account id is
substituted. -/
def jira_insights_url (INSIGHTS_ACCT_ID : String) : String :=
  "https://insights-collector.newrelic.com/v1/accounts/" ++ INSIGHTS_ACCT_ID ++ "/events"

/-- State of the temp-artifact directory: one entry per existing file,
keyed by path.  The value abstracts what opening and json.load-ing the
file yields: none stands for a file whose contents are not valid JSON
(json.load raises), some fs stands for a file parsing to the findings
list fs.  A path absent from the list is a missing file (open raises). -/
abbrev ArtifactFS := List (String × Option (List RawFinding))

/-- Look a path up in the artifact directory: none when the file is
missing, otherwise its parse outcome. -/
def fsLookup (fs : ArtifactFS) (p : String) : Option (Option (List RawFinding)) :=
  (fs.find? fun e => e.1 == p).map fun e => e.2

/-- Remove a path from the artifact directory. -/
def fsRemove (fs : ArtifactFS) (p : String) : ArtifactFS :=
  fs.filter fun e => e.1 != p

/-- Model of pythons os.remove: deletes the file, raising
FileNotFoundError when it does not exist. -/
def osRemove (fs : ArtifactFS) (p : String) : Except String ArtifactFS :=
  if (fsLookup fs p).isSome then .ok (fsRemove fs p) else .error "FileNotFoundError"

/-- ghe_secret_monitor.py lines 159-209, the aggregation loop.  For
each record: the open at line 161 is wrapped in try/except (a missing
file logs a warning and continues); json.load at line 169 is NOT inside
any try, so a file with invalid JSON raises json.decoder.JSONDecodeError
and aborts the whole loop; on success the events are appended and
os.remove at line 209 deletes the artifact (the file exists, since it
was just opened).  Returns the directory state and either the collected
events or the uncaught exception. -/
def gheAggLoop :
    ArtifactFS → List RunRecord → List FindingEvent →
      ArtifactFS × Except String (List FindingEvent)
  | fs, [], acc => (fs, .ok acc)
  | fs, r :: rest, acc =>
    match fsLookup fs r.results with
    | none => gheAggLoop fs rest acc
    | some none => (fs, .error "json.decoder.JSONDecodeError")
    | some (some findings) =>
        gheAggLoop (fsRemove fs r.results) rest (acc ++ findings.map (gheFindingEvent r))

/-- The per-repo record returned by f in gh_org_scanner.py lines 33-38. -/
structure GhOrgRecord where
  repo : String
  results : String
deriving Repr, DecidableEq

/-- The CSV row written for one finding in gh_org_scanner.py lines
56-62 (str of the stringsFound list is modeled with toString). -/
def ghOrgRow (repoName : String) (f : RawFinding) : List String :=
  [repoName, f.reason, toString f.stringsFound, f.path, f.commit, f.commitHash, f.date]

/-- gh_org_scanner.py lines 51-65, the aggregation loop.  The try at
lines 52-64 swallows open and parse failures (except: pass, zero rows),
but os.remove at line 65 sits outside the try: removing an artifact the
scanner never created raises FileNotFoundError and aborts the loop. -/
def ghOrgAggLoop :
    ArtifactFS → List GhOrgRecord → List (List String) →
      ArtifactFS × Except String (List (List String))
  | fs, [], acc => (fs, .ok acc)
  | fs, r :: rest, acc =>
    let rows :=
      match fsLookup fs r.results with
      | none => []
      | some none => []
      | some (some findings) => findings.map (ghOrgRow r.repo)
    match osRemove fs r.results with
    | .error e => (fs, .error e)
    | .ok fs2 => ghOrgAggLoop fs2 rest (acc ++ rows)

/-- The per-file record returned by scan_duroc in gdrive_scanner.py
lines 63-82. -/
structure GdriveRecord where
  id : String
  results : String
  name : String
  link : String
deriving Repr, DecidableEq

/-- The CSV row written for one finding in gdrive_scanner.py lines
175-180. -/
def gdriveRow (r : GdriveRecord) (f : RawFinding) : List String :=
  [r.id, f.reason, toString f.stringsFound, r.name, toString f.linenum, r.link]

/-- One iteration of the duroc loop in gdrive_scanner.py lines 169-186:
the first try (lines 170-182) turns open or parse failures into zero
rows; the second try (lines 183-186) attempts os.remove and swallows
its failure.  Returns the directory state after the iteration and the
rows produced. -/
def gdriveStep (fs : ArtifactFS) (r : GdriveRecord) : ArtifactFS × List (List String) :=
  let rows :=
    match fsLookup fs r.results with
    | none => []
    | some none => []
    | some (some findings) => findings.map (gdriveRow r)
  let fs2 :=
    match osRemove fs r.results with
    | .error _ => fs
    | .ok fs3 => fs3
  (fs2, rows)

/-- gdrive_scanner.py lines 169-186, the duroc aggregation loop: every
iteration is gdriveStep; nothing can abort the loop. -/
def gdriveAggLoop :
    ArtifactFS → List GdriveRecord → List (List String) →
      ArtifactFS × List (List String)
  | fs, [], acc => (fs, acc)
  | fs, r :: rest, acc =>
      gdriveAggLoop (gdriveStep fs r).1 rest (acc ++ (gdriveStep fs r).2)

/-- The record appended per google-doc link in jira_secret_monitor.py
line 112 (jira_secret_scanner.py line 103).  The results field holds
the index of the uuid4 draw used as the output path; uuid4 draws are
numbered in program order, distinct indices standing for the distinct
random values. -/
structure JiraScanResult where
  gdoc_link : String
  results : Nat
  key : String
deriving Repr, DecidableEq

/-- jira_secret_monitor.py lines 91-112 (jira_secret_scanner.py lines
82-103): the inner loop over one issue-s google-doc links.  Every link
matching the gdoc-id regex (abstracted as the predicate m) triggers one
ankamali hog invocation whose --outputfile is the single filename drawn
for the issue; non-matching links are skipped by the continue at line
96. -/
def jiraIssueScan (m : String → Bool) (filename : Nat) (key : String)
    (glinks : List String) : List JiraScanResult :=
  glinks.filterMap fun link =>
    if m link then some { gdoc_link := link, results := filename, key := key } else none

/-- jira_secret_monitor.py lines 87-113: the outer loop over issues.
One fresh uuid4 is drawn per issue at line 89 (before the inner link
loop), so the draw counter advances once per issue, not once per
invocation. -/
def jiraScanLoop (m : String → Bool) : Nat → List (String × List String) → List JiraScanResult
  | _, [] => []
  | n, (key, glinks) :: rest =>
      jiraIssueScan m n key glinks ++ jiraScanLoop m (n + 1) rest

/-- ghe_secret_monitor.py line 109: scan_repo draws a fresh uuid4 for
every invocation, so over a dispatch of a target list the draw counter
advances once per target; the result lists the draw index used by each
invocation. -/
def gheScanPaths : Nat → List (String × String × String) → List Nat
  | _, [] => []
  | n, _ :: rest => n :: gheScanPaths (n + 1) rest

/-- One worker completion in the process pool: completing the item at
index i contributes the pair (i, f item) when i is in range.  The order
argument of the pool model lists the indices in completion order, so
this is everything the workers of Pool(W).map produce, in the order
they finish. -/
def poolCollect (f : α → β) (xs : List α) (order : List Nat) : List (Nat × β) :=
  order.filterMap fun i => (xs[i]?).map fun x => (i, f x)

/-- Reassembly done by Pool.map: the result at position i is the worker
result tagged i, whatever order completions arrived in. -/
def poolAssemble (n : Nat) (pairs : List (Nat × β)) : List (Option β) :=
  (List.range n).map fun i => (pairs.find? fun p => p.1 == i).map fun p => p.2

/-- Model of Pool(W).map(f, xs) (ghe_secret_monitor.py lines 128-129,
gh_org_scanner.py lines 43-44): workers complete in the arbitrary order
given, and the pool reassembles the results by item index.  A position
is none only if its index never completed. -/
def poolApplyMap (f : α → β) (xs : List α) (order : List Nat) : List (Option β) :=
  poolAssemble xs.length (poolCollect f xs order)

/-- Model of pythons str.startswith, structural over the character
lists of the strings. -/
def pyStartswith (s pre : String) : Bool :=
  pre.data.isPrefixOf s.data

/-- The decimal value of one digit character, none for a non-digit. -/
def pyDigitVal (c : Char) : Option Nat :=
  if 48 ≤ c.toNat ∧ c.toNat ≤ 57 then some (c.toNat - 48) else none

/-- Decimal digits to a natural number, none on any non-digit. -/
def pyNatOfDigits : List Char → Nat → Option Nat
  | [], acc => some acc
  | c :: cs, acc =>
    match pyDigitVal c with
    | none => none
    | some d => pyNatOfDigits cs (acc * 10 + d)

/-- Model of pythons int() on the strings the scripts pass: an optional
minus sign followed by decimal digits; anything else raises, modeled as
none. -/
def pyInt (s : String) : Option Int :=
  match s.data with
  | [] => none
  | c :: cs =>
    if c = '-' then
      if cs = [] then none else (pyNatOfDigits cs 0).map fun n => -(n : Int)
    else
      (pyNatOfDigits (c :: cs) 0).map fun n => (n : Int)

/-- ghe_secret_monitor.py lines 38-47: the argument loop sets sample
from the last --sample= argument (int of the nine-characters-onward
slice), leaving it at its falsy initial value (False) when the flag is
absent; none models that initial value. -/
def parseSample (argv : List String) : Option Int :=
  argv.foldl
    (fun acc arg =>
      if pyStartswith arg "--sample=" then pyInt (String.mk (arg.data.drop 9)) else acc)
    none

/-- Pythons truthiness test at ghe_secret_monitor.py line 69 (if
sample:): False and 0 are falsy, every other int truthy. -/
def sampleTruthy : Option Int → Bool
  | none => false
  | some n => n != 0

/-- Model of pythons random.sample(l, k): raises ValueError when k is
negative or exceeds the population size.  The random choice itself is
determinized as the first k elements; only the error condition and the
result length matter to the properties below. -/
def randomSample (l : List α) (k : Int) : Except String (List α) :=
  if 0 ≤ k ∧ k ≤ (l.length : Int) then .ok (l.take k.toNat)
  else .error "ValueError: Sample larger than population or is negative"

/-- ghe_secret_monitor.py lines 69-71: when the sample value is truthy,
the repo list is replaced by random.sample of it; otherwise it is left
whole. -/
def gheSampleStep (sample : Option Int) (repos : List α) : Except String (List α) :=
  if sampleTruthy sample then randomSample repos (sample.getD 0) else .ok repos

/-- gdrive_scanner.py lines 145-149: sampling is applied only when the
flag is truthy and the candidate list is strictly longer than the
requested size; otherwise the full list is kept. -/
def gdriveSampleStep (sample : Option Int) (files : List α) : Except String (List α) :=
  if sampleTruthy sample then
    if (files.length : Int) > sample.getD 0 then randomSample files (sample.getD 0)
    else .ok files
  else .ok files

/-- The front of the ghe_secret_monitor pipeline: sampling at line 71
runs before the pool dispatch at lines 128-129, so a ValueError from
random.sample propagates and no scan is ever dispatched; otherwise
every surviving repo is dispatched exactly once (the uuid4 draw of each
worker passed as uuidOf). -/
def gheRun (sample : Option Int) (tempdir : String)
    (uuidOf : String × String × String → String)
    (repos : List (String × String × String)) : Except String (List RunRecord) :=
  match gheSampleStep sample repos with
  | .error e => .error e
  | .ok repos2 => .ok (repos2.map fun x => scan_repo tempdir (uuidOf x) x)

/-- Removing a path makes its lookup fail. -/
theorem fsRemove_lookup_self (fs : ArtifactFS) (p : String) :
    fsLookup (fsRemove fs p) p = none := by
  have h : (fsRemove fs p).find? (fun e => e.1 == p) = none := by
    rw [List.find?_eq_none]
    intro e he
    have h2 := (List.mem_filter.mp he).2
    simp only [bne_iff_ne, ne_eq, decide_eq_true_eq] at h2
    simp [h2]
  simp [fsLookup, h]

/-- Removing one path cannot make another lookup succeed. -/
theorem fsRemove_lookup_none (fs : ArtifactFS) (p q : String)
    (h : fsLookup fs q = none) : fsLookup (fsRemove fs p) q = none := by
  have h0 : fs.find? (fun e => e.1 == q) = none := by
    cases hf : fs.find? (fun e => e.1 == q) with
    | none => rfl
    | some e => simp [fsLookup, hf] at h
  have h1 : (fsRemove fs p).find? (fun e => e.1 == q) = none := by
    rw [List.find?_eq_none] at h0 ⊢
    intro e he
    exact h0 e (List.mem_filter.mp he).1
  simp [fsLookup, h1]

/-- After one gdrive iteration the artifact of the processed record is
gone: either it existed and os.remove deleted it, or it never existed. -/
theorem gdriveStep_clears (fs : ArtifactFS) (r : GdriveRecord) :
    fsLookup (gdriveStep fs r).1 r.results = none := by
  cases h : fsLookup fs r.results with
  | none => simp [gdriveStep, osRemove, h]
  | some v => simp [gdriveStep, osRemove, h, fsRemove_lookup_self]

/-- A gdrive iteration never creates files. -/
theorem gdriveStep_preserves_none (fs : ArtifactFS) (r : GdriveRecord) (p : String)
    (h : fsLookup fs p = none) : fsLookup (gdriveStep fs r).1 p = none := by
  cases h2 : fsLookup fs r.results with
  | none => simpa [gdriveStep, osRemove, h2] using h
  | some v => simpa [gdriveStep, osRemove, h2] using fsRemove_lookup_none fs r.results p h

/-- The gdrive aggregation loop never creates files. -/
theorem gdriveAggLoop_preserves_none (records : List GdriveRecord) :
    ∀ (fs : ArtifactFS) (acc : List (List String)) (p : String),
      fsLookup fs p = none → fsLookup (gdriveAggLoop fs records acc).1 p = none := by
  induction records with
  | nil => intro fs acc p h; simpa [gdriveAggLoop] using h
  | cons r rest ih =>
    intro fs acc p h
    simp only [gdriveAggLoop]
    exact ih _ _ p (gdriveStep_preserves_none fs r p h)

/-- After the gdrive aggregation loop, no processed record still has its
artifact on disk. -/
theorem gdriveAggLoop_cleanup (records : List GdriveRecord) :
    ∀ (fs : ArtifactFS) (acc : List (List String)) (r : GdriveRecord),
      r ∈ records → fsLookup (gdriveAggLoop fs records acc).1 r.results = none := by
  induction records with
  | nil => intro fs acc r hr; cases hr
  | cons r0 rest ih =>
    intro fs acc r hr
    simp only [gdriveAggLoop]
    rcases List.mem_cons.mp hr with h | h
    · subst h
      exact gdriveAggLoop_preserves_none rest _ _ _ (gdriveStep_clears fs r)
    · exact ih _ _ r h

/-- Every record of one jira issue batch carries the single filename
drawn for that issue. -/
theorem jiraIssueScan_results (m : String → Bool) (n : Nat) (key : String)
    (glinks : List String) (r : JiraScanResult)
    (hr : r ∈ jiraIssueScan m n key glinks) : r.results = n := by
  rcases List.mem_filterMap.mp hr with ⟨link, _, heq⟩
  by_cases hm : m link
  · simp only [hm, if_true, Option.some.injEq] at heq
    rw [← heq]
  · simp [hm] at heq

/-- Records produced from the draw counter n onward use draw indices at
least n. -/
theorem jiraScanLoop_results_ge (m : String → Bool) :
    ∀ (issues : List (String × List String)) (n : Nat) (r : JiraScanResult),
      r ∈ jiraScanLoop m n issues → n ≤ r.results := by
  intro issues
  induction issues with
  | nil => intro n r hr; simp [jiraScanLoop] at hr
  | cons iss rest ih =>
    intro n r hr
    obtain ⟨key, glinks⟩ := iss
    simp only [jiraScanLoop, List.mem_append] at hr
    rcases hr with h | h
    · exact Nat.le_of_eq (jiraIssueScan_results m n key glinks r h).symm
    · exact Nat.le_of_succ_le (ih (n + 1) r h)

/-- The ghe dispatch draws consecutive fresh indices. -/
theorem gheScanPaths_range (n : Nat) (xs : List (String × String × String)) :
    gheScanPaths n xs = List.range' n xs.length := by
  induction xs generalizing n with
  | nil => rfl
  | cons x rest ih =>
    show n :: gheScanPaths (n + 1) rest = List.range' n (rest.length + 1)
    rw [ih]
    rfl

/-- Unfolding poolCollect over a completed index that is in range. -/
theorem poolCollect_cons_some (f : α → β) (xs : List α) (j : Nat) (rest : List Nat)
    (x : α) (hx : xs[j]? = some x) :
    poolCollect f xs (j :: rest) = (j, f x) :: poolCollect f xs rest := by
  simp [poolCollect, List.filterMap_cons, hx]

/-- When every completed index is in range, each completion contributes
exactly one collected pair. -/
theorem poolCollect_length (f : α → β) (xs : List α) (order : List Nat)
    (hb : ∀ j ∈ order, j < xs.length) :
    (poolCollect f xs order).length = order.length := by
  induction order with
  | nil => rfl
  | cons j rest ih =>
    have hj : j < xs.length := hb j (List.mem_cons_self _ _)
    rw [poolCollect_cons_some f xs j rest _ (List.getElem?_eq_getElem hj)]
    simp only [List.length_cons]
    rw [ih fun k hk => hb k (List.mem_cons_of_mem _ hk)]

/-- Looking a completed index up among the collected pairs recovers the
worker result for exactly that item. -/
theorem poolCollect_find (f : α → β) (xs : List α) (order : List Nat) (i : Nat)
    (hb : ∀ j ∈ order, j < xs.length) (hi : i ∈ order) :
    (poolCollect f xs order).find? (fun p => p.1 == i)
      = (xs[i]?).map fun x => (i, f x) := by
  induction order with
  | nil => cases hi
  | cons j rest ih =>
    have hj : j < xs.length := hb j (List.mem_cons_self _ _)
    rw [poolCollect_cons_some f xs j rest _ (List.getElem?_eq_getElem hj)]
    by_cases hji : j = i
    · subst hji
      rw [List.find?_cons_of_pos _ (by simp)]
      simp [List.getElem?_eq_getElem hj]
    · rw [List.find?_cons_of_neg _ (by simp [hji])]
      have hi2 : i ∈ rest := by
        rcases List.mem_cons.mp hi with h | h
        · exact absurd h.symm hji
        · exact h
      exact ih (fun k hk => hb k (List.mem_cons_of_mem _ hk)) hi2

/-- Pool.map over any completion order that completes each item exactly
once is the sequential map. -/
theorem poolApplyMap_eq (f : α → β) (xs : List α) (order : List Nat)
    (h : order.Perm (List.range xs.length)) :
    poolApplyMap f xs order = xs.map fun x => some (f x) := by
  have hb : ∀ j ∈ order, j < xs.length := fun j hj =>
    List.mem_range.mp (h.mem_iff.mp hj)
  apply List.ext_getElem?
  intro i
  by_cases hi : i < xs.length
  · have hio : i ∈ order := h.mem_iff.mpr (List.mem_range.mpr hi)
    have hfind := poolCollect_find f xs order i hb hio
    have hx : xs[i]? = some xs[i] := List.getElem?_eq_getElem hi
    rw [poolApplyMap, poolAssemble, List.getElem?_map, List.getElem?_map,
      List.getElem?_range hi, hx]
    simp [hfind, hx]
  · have hlen : xs.length ≤ i := Nat.le_of_not_lt hi
    rw [poolApplyMap, poolAssemble, List.getElem?_map, List.getElem?_map,
      List.getElem?_eq_none (by simpa using hlen), List.getElem?_eq_none hlen]
    rfl

/-- C1: the ghe aggregation loop derives the fileurl from the new line
number and the commit hash when new_line_num is non-zero, and from the
old line number and the parent commit hash when new_line_num is zero. -/
theorem ghe_fileurl_line_selection (url : String) (f : RawFinding) :
    (f.new_line_num ≠ 0 →
      fileurl url f = url ++ "/blob/" ++ f.commitHash ++ "/" ++ f.path ++ "#L"
        ++ toString f.new_line_num)
    ∧ (f.new_line_num = 0 →
      fileurl url f = url ++ "/blob/" ++ f.parent_commit_hash ++ "/" ++ f.path ++ "#L"
        ++ toString f.old_line_num) := by
  constructor
  · intro h; simp [fileurl, h]
  · intro h; simp [fileurl, h]

/-- Witness for C1, the literal round-trip of the claim: new_line_num 0,
old_line_num 42, parent commit abc, commit def, path x.go, base URL
https disabled-example, gives the parent-commit URL ending in L42. -/
theorem ghe_fileurl_line_selection_witness :
    fileurl "https://ghe.example/org/repo"
        { reason := "r", stringsFound := [], path := "x.go", commit := "",
          commitHash := "def", parent_commit_hash := "abc",
          old_line_num := 42, new_line_num := 0, linenum := 0, date := "" }
      = "https://ghe.example/org/repo/blob/abc/x.go#L42" := by
  have h := (ghe_fileurl_line_selection "https://ghe.example/org/repo"
      { reason := "r", stringsFound := [], path := "x.go", commit := "",
        commitHash := "def", parent_commit_hash := "abc",
        old_line_num := 42, new_line_num := 0, linenum := 0, date := "" }).2 rfl
  exact h.trans (by decide)

/-- C2 counterexample: pypi_secret_monitor runs duroc hog with
check=True, so a non-zero scanner exit raises CalledProcessError and
aborts the run instead of being recorded as a per-target failure. -/
theorem duroc_nonzero_exit_raises :
    duroc_hog_output { returncode := 1, stdout := "", stderr := "permission denied" }
      = .error "CalledProcessError: exit status 1" := rfl

/-- C2 amended: variants that run the scanner without check (such as
ghe_secret_monitor) do not raise on non-zero exit and continue with the
captured output, while the duroc variants (pypi, rubygem, s3weblisting,
htmldirlisting) pass check=True and a non-zero exit raises
CalledProcessError, aborting the whole run. -/
theorem nonzero_exit_policy_per_variant (p : CompletedProcess)
    (h : p.returncode ≠ 0) :
    ghe_choctaw_run p = .ok p
    ∧ duroc_hog_output p
        = .error ("CalledProcessError: exit status " ++ toString p.returncode)
    ∧ s3_duroc_run p
        = .error ("CalledProcessError: exit status " ++ toString p.returncode) := by
  refine ⟨rfl, ?_, ?_⟩ <;>
    simp [duroc_hog_output, s3_duroc_run, subprocessRun, bne_iff_ne, h]

/-- Witness for the amended C2 at exit status 2. -/
theorem nonzero_exit_policy_per_variant_witness :
    ghe_choctaw_run { returncode := 2, stdout := "", stderr := "boom" }
        = .ok { returncode := 2, stdout := "", stderr := "boom" }
    ∧ duroc_hog_output { returncode := 2, stdout := "", stderr := "boom" }
        = .error "CalledProcessError: exit status 2"
    ∧ s3_duroc_run { returncode := 2, stdout := "", stderr := "boom" }
        = .error "CalledProcessError: exit status 2" :=
  nonzero_exit_policy_per_variant { returncode := 2, stdout := "", stderr := "boom" }
    (by decide)

/-- C3 counterexample: in ghe_secret_monitor the json.load at line 169
is outside every try block, so one artifact holding invalid JSON raises
json.decoder.JSONDecodeError, aborting the aggregation pass before the
remaining target (whose artifact is valid) is processed. -/
theorem ghe_invalid_json_aborts_aggregation :
    gheAggLoop [("/tmp/a", none), ("/tmp/b", some [])]
        [ { repo := "git@ghe:org/r1.git", results := "/tmp/a", url := "https://ghe/org/r1" }
        , { repo := "git@ghe:org/r2.git", results := "/tmp/b", url := "https://ghe/org/r2" } ]
        []
      = ([("/tmp/a", none), ("/tmp/b", some [])], .error "json.decoder.JSONDecodeError") :=
  rfl

/-- C3 amended: a missing or unreadable artifact is logged and skipped
without any event in the ghe loop, and the gdrive loop also contains a
JSON parse failure to that target alone; but in the ghe loop an
artifact that opens and fails to parse raises and aborts the whole
aggregation pass. -/
theorem aggregation_skip_policy :
    (∀ (fs : ArtifactFS) (r : RunRecord) (rest : List RunRecord)
        (acc : List FindingEvent), fsLookup fs r.results = none →
        gheAggLoop fs (r :: rest) acc = gheAggLoop fs rest acc)
    ∧ (∀ (fs : ArtifactFS) (r : RunRecord) (rest : List RunRecord)
        (acc : List FindingEvent), fsLookup fs r.results = some none →
        gheAggLoop fs (r :: rest) acc = (fs, .error "json.decoder.JSONDecodeError"))
    ∧ (∀ (fs : ArtifactFS) (r : GdriveRecord) (rest : List GdriveRecord)
        (acc : List (List String)), fsLookup fs r.results = some none →
        gdriveAggLoop fs (r :: rest) acc = gdriveAggLoop (fsRemove fs r.results) rest acc) := by
  refine ⟨?_, ?_, ?_⟩
  · intro fs r rest acc h
    simp [gheAggLoop, h]
  · intro fs r rest acc h
    simp [gheAggLoop, h]
  · intro fs r rest acc h
    simp only [gdriveAggLoop]
    simp [gdriveStep, osRemove, h]

/-- Witness for the amended C3 on one-record runs. -/
theorem aggregation_skip_policy_witness :
    gheAggLoop [] [{ repo := "g", results := "/tmp/x", url := "u" }] []
        = gheAggLoop [] [] []
    ∧ gheAggLoop [("/tmp/x", none)] [{ repo := "g", results := "/tmp/x", url := "u" }] []
        = ([("/tmp/x", none)], .error "json.decoder.JSONDecodeError")
    ∧ gdriveAggLoop [("/tmp/y", none)]
        [{ id := "i", results := "/tmp/y", name := "n", link := "l" }] []
        = gdriveAggLoop (fsRemove [("/tmp/y", none)] "/tmp/y") [] [] :=
  ⟨aggregation_skip_policy.1 [] { repo := "g", results := "/tmp/x", url := "u" } [] []
      (by decide),
   aggregation_skip_policy.2.1 [("/tmp/x", none)]
      { repo := "g", results := "/tmp/x", url := "u" } [] [] (by decide),
   aggregation_skip_policy.2.2 [("/tmp/y", none)]
      { id := "i", results := "/tmp/y", name := "n", link := "l" } [] [] (by decide)⟩

/-- C4 counterexample: in gh_org_scanner the unguarded os.remove at line
65 raises FileNotFoundError when the scanner never produced the
artifact, aborting the run; and in ghe_secret_monitor a parse failure
aborts the loop with the artifact still on disk. -/
theorem gh_org_missing_artifact_remove_raises :
    ghOrgAggLoop [] [{ repo := "r1", results := "/tmp/gone" }] []
        = ([], .error "FileNotFoundError")
    ∧ (gheAggLoop [("/tmp/a", none)]
        [{ repo := "g", results := "/tmp/a", url := "u" }] []).1
        = [("/tmp/a", none)] :=
  ⟨rfl, rfl⟩

/-- C4 amended: only the gdrive variant guarantees cleanup; after its
aggregation loop no processed record still has an artifact on disk and
nothing aborts.  In the ghe loop a parse failure aborts before the
deletion, leaving the directory untouched, and in gh_org the deletion
of a missing artifact itself raises and aborts the run. -/
theorem artifact_cleanup_policy :
    (∀ (fs : ArtifactFS) (records : List GdriveRecord) (acc : List (List String))
        (r : GdriveRecord), r ∈ records →
        fsLookup (gdriveAggLoop fs records acc).1 r.results = none)
    ∧ (∀ (fs : ArtifactFS) (r : RunRecord) (rest : List RunRecord)
        (acc : List FindingEvent), fsLookup fs r.results = some none →
        (gheAggLoop fs (r :: rest) acc).1 = fs)
    ∧ (∀ (fs : ArtifactFS) (r : GhOrgRecord) (rest : List GhOrgRecord)
        (acc : List (List String)), fsLookup fs r.results = none →
        ghOrgAggLoop fs (r :: rest) acc = (fs, .error "FileNotFoundError")) := by
  refine ⟨?_, ?_, ?_⟩
  · intro fs records acc r hr
    exact gdriveAggLoop_cleanup records fs acc r hr
  · intro fs r rest acc h
    simp [gheAggLoop, h]
  · intro fs r rest acc h
    simp [ghOrgAggLoop, osRemove, h]

/-- Witness for the amended C4 on one-record runs. -/
theorem artifact_cleanup_policy_witness :
    fsLookup (gdriveAggLoop [("/tmp/y", some [])]
        [{ id := "i", results := "/tmp/y", name := "n", link := "l" }] []).1 "/tmp/y"
        = none
    ∧ (gheAggLoop [("/tmp/a", none)]
        [{ repo := "g", results := "/tmp/a", url := "u" }] []).1 = [("/tmp/a", none)]
    ∧ ghOrgAggLoop [] [{ repo := "r1", results := "/tmp/gone" }] []
        = ([], .error "FileNotFoundError") :=
  ⟨artifact_cleanup_policy.1 [("/tmp/y", some [])]
      [{ id := "i", results := "/tmp/y", name := "n", link := "l" }] []
      { id := "i", results := "/tmp/y", name := "n", link := "l" } (by decide),
   artifact_cleanup_policy.2.1 [("/tmp/a", none)]
      { repo := "g", results := "/tmp/a", url := "u" } [] [] (by decide),
   artifact_cleanup_policy.2.2 []
      { repo := "r1", results := "/tmp/gone" } [] [] (by decide)⟩

/-- C5: the ghe_secret_monitor POST URL is the plain literal with the
INSIGHTS_ACCT_ID placeholder left in place (the line lacks the f-string
prefix), unlike the jira variants, which substitute the configured
account id; the headers themselves are as specified. -/
theorem ghe_insights_url_placeholder_not_substituted :
    ghe_insights_url "12345"
        = "https://insights-collector.newrelic.com/v1/accounts/\x7bINSIGHTS_ACCT_ID\x7d/events"
    ∧ jira_insights_url "12345"
        = "https://insights-collector.newrelic.com/v1/accounts/12345/events"
    ∧ ghe_insights_url "12345" ≠ jira_insights_url "12345"
    ∧ insights_headers "KEY"
        = [("Content-Type", "application/json"), ("X-Insert-Key", "KEY"),
           ("Content-Encoding", "gzip")] :=
  ⟨rfl, by decide, by decide, rfl⟩

/-- C6 counterexample: in the jira variants the uuid output path is
drawn once per issue (line 89), before the loop over that issue-s
google-doc links, so an issue with two links produces two scanner
invocations whose output paths coincide (both use draw 0). -/
theorem jira_shared_output_path_counterexample :
    ((jiraScanLoop (fun _ => true) 0
        [("KEY-1", ["https://docs.google.com/document/d/aaa",
                    "https://docs.google.com/document/d/bbb"])]).map
        fun r => r.results) = [0, 0] :=
  rfl

/-- C6 amended: ghe_secret_monitor draws a fresh uuid inside each
worker invocation, so its output paths are pairwise distinct; the jira
variants draw one uuid per issue, shared by every invocation arising
from that issue-s links, with distinct draws only across issues. -/
theorem output_path_freshness_policy :
    (∀ (n : Nat) (xs : List (String × String × String)), (gheScanPaths n xs).Nodup)
    ∧ (∀ (m : String → Bool) (n : Nat) (key : String) (glinks : List String)
        (r : JiraScanResult), r ∈ jiraIssueScan m n key glinks → r.results = n)
    ∧ (∀ (m : String → Bool) (n : Nat) (issues : List (String × List String))
        (r : JiraScanResult), r ∈ jiraScanLoop m (n + 1) issues → n < r.results) := by
  refine ⟨?_, ?_, ?_⟩
  · intro n xs
    rw [gheScanPaths_range]
    exact List.nodup_range' n xs.length
  · intro m n key glinks r hr
    exact jiraIssueScan_results m n key glinks r hr
  · intro m n issues r hr
    exact jiraScanLoop_results_ge m issues (n + 1) r hr

/-- Witness for the amended C6: a concrete dispatch and a concrete
issue batch. -/
theorem output_path_freshness_policy_witness :
    (gheScanPaths 0 [("r1", "s1", "u1"), ("r2", "s2", "u2")]).Nodup
    ∧ ({ gdoc_link := "https://docs.google.com/document/d/aaa",
         results := 5, key := "K" } : JiraScanResult).results = 5
    ∧ 4 < ({ gdoc_link := "https://docs.google.com/document/d/aaa",
             results := 5, key := "K" } : JiraScanResult).results :=
  ⟨output_path_freshness_policy.1 0 [("r1", "s1", "u1"), ("r2", "s2", "u2")],
   output_path_freshness_policy.2.1 (fun _ => true) 5 "K"
      ["https://docs.google.com/document/d/aaa"]
      { gdoc_link := "https://docs.google.com/document/d/aaa", results := 5, key := "K" }
      (by decide),
   output_path_freshness_policy.2.2 (fun _ => true) 4
      [("K", ["https://docs.google.com/document/d/aaa"])]
      { gdoc_link := "https://docs.google.com/document/d/aaa", results := 5, key := "K" }
      (by decide)⟩

/-- C7: over any completion order that completes each of the N targets
exactly once, Pool.map issues exactly N scanner invocations and returns
exactly N results, the result at each position being the record of its
originating target (carrying that target-s repo identity), independent
of the completion order. -/
theorem pool_dispatch_exactly_n (tempdir : String)
    (uuidOf : String × String × String → String)
    (ts : List (String × String × String)) (order : List Nat)
    (h : order.Perm (List.range ts.length)) :
    (poolCollect (fun x => scan_repo tempdir (uuidOf x) x) ts order).length = ts.length
    ∧ poolApplyMap (fun x => scan_repo tempdir (uuidOf x) x) ts order
        = (ts.map fun x => some (scan_repo tempdir (uuidOf x) x))
    ∧ (poolApplyMap (fun x => scan_repo tempdir (uuidOf x) x) ts order).map
          (Option.map RunRecord.repo)
        = (ts.map fun x => some x.1) := by
  have hb : ∀ j ∈ order, j < ts.length := fun j hj =>
    List.mem_range.mp (h.mem_iff.mp hj)
  have h2 := poolApplyMap_eq (fun x => scan_repo tempdir (uuidOf x) x) ts order h
  refine ⟨?_, h2, ?_⟩
  · rw [poolCollect_length _ _ _ hb, h.length_eq, List.length_range]
  · rw [h2]
    simp [scan_repo, Function.comp]

/-- Witness for C7: three targets completing in the order 2, 0, 1. -/
theorem pool_dispatch_exactly_n_witness :
    (poolCollect (fun x => scan_repo "/tmp" ((fun y => y.2.1) x) x)
        [("r1", "s1", "u1"), ("r2", "s2", "u2"), ("r3", "s3", "u3")] [2, 0, 1]).length = 3
    ∧ poolApplyMap (fun x => scan_repo "/tmp" ((fun y => y.2.1) x) x)
        [("r1", "s1", "u1"), ("r2", "s2", "u2"), ("r3", "s3", "u3")] [2, 0, 1]
        = [some { repo := "r1", results := "/tmp/s1", url := "u1" },
           some { repo := "r2", results := "/tmp/s2", url := "u2" },
           some { repo := "r3", results := "/tmp/s3", url := "u3" }]
    ∧ (poolApplyMap (fun x => scan_repo "/tmp" ((fun y => y.2.1) x) x)
        [("r1", "s1", "u1"), ("r2", "s2", "u2"), ("r3", "s3", "u3")] [2, 0, 1]).map
          (Option.map RunRecord.repo)
        = [some "r1", some "r2", some "r3"] :=
  pool_dispatch_exactly_n "/tmp" (fun y => y.2.1)
    [("r1", "s1", "u1"), ("r2", "s2", "u2"), ("r3", "s3", "u3")] [2, 0, 1] (by decide)

/-- C8: a commit comment is created only when the finding-s reason is a
member of comment_worthy_reasons, and never for a reason outside that
allow-list. -/
theorem comment_gated_by_allowlist (authorLogin : String) (f : RawFinding) :
    ((commentFor authorLogin f).isSome → f.reason ∈ comment_worthy_reasons)
    ∧ (f.reason ∉ comment_worthy_reasons → commentFor authorLogin f = none) := by
  constructor
  · intro h
    by_contra hmem
    simp [commentFor, hmem] at h
  · intro hmem
    simp [commentFor, hmem]

/-- Witness for C8: the generic entropy reason is outside the
allow-list, so no comment is created for it. -/
theorem comment_gated_by_allowlist_witness :
    commentFor "octocat"
        { reason := "Entropy", stringsFound := [], path := "a.txt", commit := "",
          commitHash := "c", parent_commit_hash := "p", old_line_num := 0,
          new_line_num := 1, linenum := 0, date := "" } = none :=
  (comment_gated_by_allowlist "octocat"
      { reason := "Entropy", stringsFound := [], path := "a.txt", commit := "",
        commitHash := "c", parent_commit_hash := "p", old_line_num := 0,
        new_line_num := 1, linenum := 0, date := "" }).2 (by decide)

/-- C9: when the requested sample size exceeds the enumerated repo
count, ghe_secret_monitor-s random.sample raises ValueError and the run
aborts before any scan is dispatched; gdrive_scanner samples only when
the candidate list is strictly longer than the requested size and
otherwise keeps the full list without error. -/
theorem sample_oversize_behavior (N : Int) (tempdir : String)
    (uuidOf : String × String × String → String)
    (repos : List (String × String × String)) (files : List String) :
    ((repos.length : Int) < N →
      gheRun (some N) tempdir uuidOf repos
        = .error "ValueError: Sample larger than population or is negative")
    ∧ (0 < N → (files.length : Int) ≤ N →
      gdriveSampleStep (some N) files = .ok files)
    ∧ (0 < N → N < (files.length : Int) →
      gdriveSampleStep (some N) files = .ok (files.take N.toNat)) := by
  refine ⟨?_, ?_, ?_⟩
  · intro h
    have ht : sampleTruthy (some N) = true := by
      simp only [sampleTruthy, bne_iff_ne, ne_eq, decide_eq_true_eq]
      omega
    have hc : ¬(0 ≤ N ∧ N ≤ (repos.length : Int)) := by omega
    simp [gheRun, gheSampleStep, ht, randomSample, hc]
  · intro h0 hle
    have ht : sampleTruthy (some N) = true := by
      simp only [sampleTruthy, bne_iff_ne, ne_eq, decide_eq_true_eq]
      omega
    have hng : ¬((files.length : Int) > N) := by omega
    simp [gdriveSampleStep, ht, hng]
  · intro h0 hlt
    have ht : sampleTruthy (some N) = true := by
      simp only [sampleTruthy, bne_iff_ne, ne_eq, decide_eq_true_eq]
      omega
    have hcond : 0 ≤ N ∧ N ≤ (files.length : Int) := by omega
    simp [gdriveSampleStep, ht, hlt, randomSample, hcond]

/-- Witness for C9: a sample of 3 over 2 repos aborts the ghe run, while
gdrive keeps 2 files whole under a sample of 3 and samples 1 of 2. -/
theorem sample_oversize_behavior_witness :
    gheRun (some 3) "/tmp" (fun x => x.1) [("r1", "a", "b"), ("r2", "c", "d")]
        = .error "ValueError: Sample larger than population or is negative"
    ∧ gdriveSampleStep (some 3) ["x", "y"] = .ok ["x", "y"]
    ∧ gdriveSampleStep (some 1) ["x", "y"] = .ok ["x"] :=
  ⟨(sample_oversize_behavior 3 "/tmp" (fun x => x.1)
      [("r1", "a", "b"), ("r2", "c", "d")] ["x", "y"]).1 (by decide),
   (sample_oversize_behavior 3 "/tmp" (fun x => x.1)
      [("r1", "a", "b"), ("r2", "c", "d")] ["x", "y"]).2.1 (by decide) (by decide),
   (sample_oversize_behavior 1 "/tmp" (fun x => x.1)
      [("r1", "a", "b"), ("r2", "c", "d")] ["x", "y"]).2.2 (by decide) (by decide)⟩

/-- C10: --sample=0 parses to 0, which is falsy in the truthiness test
at line 69, so sampling is disabled and every enumerated target is
dispatched, rather than an empty set being selected. -/
theorem sample_zero_disables_sampling (tempdir : String)
    (uuidOf : String × String × String → String)
    (repos : List (String × String × String)) :
    parseSample ["ghe_secret_monitor.py", "--sample=0"] = some 0
    ∧ gheRun (parseSample ["ghe_secret_monitor.py", "--sample=0"]) tempdir uuidOf repos
        = .ok (repos.map fun x => scan_repo tempdir (uuidOf x) x)
    ∧ (repos.map fun x => scan_repo tempdir (uuidOf x) x).length = repos.length := by
  have hp : parseSample ["ghe_secret_monitor.py", "--sample=0"] = some 0 := by decide
  refine ⟨hp, ?_, by simp⟩
  rw [hp]
  simp [gheRun, gheSampleStep, sampleTruthy]

end RustyHog
